import Mathlib

/-!
# Loan EMI calculator (src/script.js)

Shallow embedding of the numeric core of the page script: the handler
calculateAndDisplay (input validation, EMI formula, totals) and the table
builder generateAmortizationSchedule.

Two readings of the arithmetic are embedded.

Exact reading (calculate, calculateAndDisplay, generateAmortizationSchedule)
* A JavaScript number is an exact rational; the result of parseFloat or
  parseInt is an Option, where none stands for NaN.  Rounding, overflow and the
  infinities of IEEE-754 doubles are outside this reading.
* A division whose divisor is zero yields a non-finite value in JavaScript
  (an infinity or NaN); in exact arithmetic this is the only source of a
  non-finite EMI, and it leads to the silent return of line 87.
* The statements proved on this reading are statements in exact arithmetic.

Double reading (Double, roundToDouble, calculateAndDisplayDouble)
* A JavaScript number is an IEEE-754 binary64 value: NaN, an infinity or a
  finite rational, and every operation of lines 62-91 rounds its exact result
  to nearest, ties to even.  This reading decides what the handler itself does
  on inputs where rounding matters.

In both readings the DOM, the chart and the currency formatter are
presentation; a table row is recorded by the numbers handed to the formatter.
-/

namespace EmiCalculator

/-- One row appended to the amortization table body (script.js 148-155).  The
first four fields are the four cells, before currency formatting.  The field
balance records the loop variable balance at the moment the row is built; the
table only shows its clamped value remainingBalance. -/
structure ScheduleRow where
  month : ℤ
  principalPayment : ℚ
  interestPayment : ℚ
  remainingBalance : ℚ
  balance : ℚ
  deriving DecidableEq, Repr

/-- The for-loop of generateAmortizationSchedule (script.js 143-156), with the
loop variables month and balance and the rows appended so far as explicit
state. -/
def scheduleLoop (monthlyRate emi : ℚ) (tenureMonths : ℤ)
    (month : ℤ) (balance : ℚ) (rows : List ScheduleRow) : List ScheduleRow :=
  if month ≤ tenureMonths then
    let interestPayment := balance * monthlyRate
    let principalPayment := emi - interestPayment
    let balance1 := balance - principalPayment
    let row : ScheduleRow :=
      { month := month
        principalPayment := principalPayment
        interestPayment := interestPayment
        remainingBalance := max 0 balance1
        balance := balance1 }
    scheduleLoop monthlyRate emi tenureMonths (month + 1) balance1 (rows ++ [row])
  else
    rows
termination_by (tenureMonths + 1 - month).toNat
decreasing_by omega

/-- The function generateAmortizationSchedule (script.js 139-157): the table
body is cleared, balance starts at principal and month at 1. -/
def generateAmortizationSchedule (principal monthlyRate emi : ℚ) (tenureMonths : ℤ) :
    List ScheduleRow :=
  scheduleLoop monthlyRate emi tenureMonths 1 principal []

/-- What one click on the calculate button does (script.js 60-103). -/
inductive Outcome where
  /-- The alert of line 70, Input values cannot be negative
  (NegativeValueError in the specification). -/
  | negativeValueError
  /-- The alert of line 76, Please enter valid, positive values
  (InvalidInputError in the specification). -/
  | invalidInputError
  /-- The silent return of line 87: the EMI is not finite. -/
  | noResult
  /-- Lines 89-102: the three displayed figures and the schedule rows. -/
  | displayed (emi totalAmountPayable totalInterestPayable : ℚ)
      (schedule : List ScheduleRow)
  deriving DecidableEq, Repr

/-- The comparison x < 0 of JavaScript on a parseFloat result: false on NaN. -/
def ltZero (x : Option ℚ) : Bool :=
  match x with
  | none => false
  | some q => decide (q < 0)

/-- The test isNaN(x) || x === 0 of line 75. -/
def nanOrZero (x : Option ℚ) : Bool :=
  match x with
  | none => true
  | some q => decide (q = 0)

/-- The expression parseInt(..) || 0 of lines 64-65: NaN and 0 both give 0. -/
def orZero (x : Option ℤ) : ℤ := x.getD 0

/-- Steps 3 to 8 of calculateAndDisplay (script.js 80-102) in exact arithmetic,
reached only with numeric principal and rate.  In exact arithmetic the EMI of
line 85 is non-finite exactly when its divisor is zero, which is the test made
here for line 87; calculateAndDisplayDouble is the same code on doubles. -/
def calculate (principal annualInterestRate : ℚ) (tenureYears tenureMonths : ℤ) : Outcome :=
  let monthlyInterestRate := annualInterestRate / 12 / 100
  let totalTenureMonths := (tenureYears * 12) + tenureMonths
  let numerator := principal * monthlyInterestRate * ((1 + monthlyInterestRate) ^ totalTenureMonths)
  let denominator := (1 + monthlyInterestRate) ^ totalTenureMonths - 1
  if denominator = 0 then
    Outcome.noResult
  else
    let emi := numerator / denominator
    let totalAmountPayable := emi * totalTenureMonths
    let totalInterestPayable := totalAmountPayable - principal
    Outcome.displayed emi totalAmountPayable totalInterestPayable
      (generateAmortizationSchedule principal monthlyInterestRate emi totalTenureMonths)

/-- The handler calculateAndDisplay (script.js 60-103) on the four parsed
inputs: parseFloat of the amount and rate fields, parseInt of the year and month
fields.  The last branch of the match is never reached: a NaN principal or rate
makes nanOrZero true and is caught by the second test. -/
def calculateAndDisplay (principal annualInterestRate : Option ℚ)
    (yearsParsed monthsParsed : Option ℤ) : Outcome :=
  let tenureYears := orZero yearsParsed
  let tenureMonths := orZero monthsParsed
  if ltZero principal || ltZero annualInterestRate
      || decide (tenureYears < 0) || decide (tenureMonths < 0) then
    Outcome.negativeValueError
  else if nanOrZero principal || nanOrZero annualInterestRate
      || (decide (tenureYears = 0) && decide (tenureMonths = 0)) then
    Outcome.invalidInputError
  else
    match principal, annualInterestRate with
    | some p, some a => calculate p a tenureYears tenureMonths
    | _, _ => Outcome.invalidInputError

/-- The closed form of the EMI of line 85, for monthly rate r and n months. -/
def emiFormula (principal r : ℚ) (n : ℤ) : ℚ :=
  principal * r * (1 + r) ^ n / ((1 + r) ^ n - 1)

/-- The rows built by n consecutive passes through the loop body of
generateAmortizationSchedule, entered with loop variables month and balance. -/
def rowsFrom (monthlyRate emi : ℚ) : ℤ → ℚ → ℕ → List ScheduleRow
  | _, _, 0 => []
  | month, balance, n + 1 =>
    { month := month
      principalPayment := emi - balance * monthlyRate
      interestPayment := balance * monthlyRate
      remainingBalance := max 0 (balance - (emi - balance * monthlyRate))
      balance := balance - (emi - balance * monthlyRate) } ::
      rowsFrom monthlyRate emi (month + 1) (balance - (emi - balance * monthlyRate)) n

/-- The loop variable balance after k passes through the loop body
(script.js 144-146), entered with the given balance. -/
def balanceAfter (monthlyRate emi : ℚ) : ℚ → ℕ → ℚ
  | balance, 0 => balance
  | balance, k + 1 => balanceAfter monthlyRate emi (balance - (emi - balance * monthlyRate)) k

/-- Rounding of an amount to 2 decimal places (to the nearest hundredth), the
precision at which the currency formatter shows rupee amounts. -/
def roundTo2 (x : ℚ) : ℚ := (round (x * 100) : ℚ) / 100

/-! ## Double precision -/

/-- A JavaScript number as an IEEE-754 binary64 value: NaN, one of the two
infinities, or a finite value given by the rational it denotes.  The sign of
zero is not tracked; it only decides the sign of an infinite quotient or power,
which isFinite does not see. -/
inductive Double where
  | nan
  | posInf
  | negInf
  | finite (value : ℚ)
  deriving DecidableEq, Repr

/-- The nearest integer, a tie going to the even neighbour. -/
def roundHalfEven (x : ℚ) : ℤ :=
  if x - ⌊x⌋ < 1 / 2 then ⌊x⌋
  else if 1 / 2 < x - ⌊x⌋ then ⌊x⌋ + 1
  else if ⌊x⌋ % 2 = 0 then ⌊x⌋
  else ⌊x⌋ + 1

/-- Rounding of an exact result to binary64, to nearest with ties to even: 53
significant bits, least exponent -1022 (below it the spacing stays 2^-1074, the
subnormal range), and a rounded magnitude of 2^1024 or more overflows to an
infinity. -/
def roundToDouble (x : ℚ) : Double :=
  if x = 0 then Double.finite 0
  else
    let e : ℤ := max (Int.log 2 |x|) (-1022)
    let ulp : ℚ := 2 ^ (e - 52)
    let r : ℚ := (roundHalfEven (|x| / ulp) : ℚ) * ulp
    if (2 : ℚ) ^ (1024 : ℤ) ≤ r then (if 0 < x then Double.posInf else Double.negInf)
    else Double.finite (if 0 < x then r else -r)


namespace Double

/-- The function isNaN. -/
def isNaN : Double → Bool
  | nan => true
  | _ => false

/-- The function isFinite. -/
def isFinite : Double → Bool
  | finite _ => true
  | _ => false

/-- The comparison x < 0: false on NaN. -/
def ltZero : Double → Bool
  | negInf => true
  | finite a => decide (a < 0)
  | _ => false

/-- The comparison x === 0. -/
def isZero : Double → Bool
  | finite a => decide (a = 0)
  | _ => false

/-- The operator + on doubles. -/
def add : Double → Double → Double
  | finite a, finite b => roundToDouble (a + b)
  | nan, _ => nan
  | _, nan => nan
  | posInf, negInf => nan
  | negInf, posInf => nan
  | posInf, _ => posInf
  | negInf, _ => negInf
  | finite _, posInf => posInf
  | finite _, negInf => negInf

/-- The operator - on doubles. -/
def sub : Double → Double → Double
  | finite a, finite b => roundToDouble (a - b)
  | nan, _ => nan
  | _, nan => nan
  | posInf, posInf => nan
  | negInf, negInf => nan
  | posInf, _ => posInf
  | negInf, _ => negInf
  | finite _, posInf => negInf
  | finite _, negInf => posInf

/-- The operator * on doubles. -/
def mul : Double → Double → Double
  | finite a, finite b => roundToDouble (a * b)
  | nan, _ => nan
  | _, nan => nan
  | posInf, posInf => posInf
  | posInf, negInf => negInf
  | negInf, posInf => negInf
  | negInf, negInf => posInf
  | posInf, finite b => if b = 0 then nan else if 0 < b then posInf else negInf
  | negInf, finite b => if b = 0 then nan else if 0 < b then negInf else posInf
  | finite a, posInf => if a = 0 then nan else if 0 < a then posInf else negInf
  | finite a, negInf => if a = 0 then nan else if 0 < a then negInf else posInf

/-- The operator / on doubles; a zero divisor gives NaN for 0/0 and an infinity
otherwise. -/
def div : Double → Double → Double
  | finite a, finite b =>
    if b = 0 then (if a = 0 then nan else if 0 < a then posInf else negInf)
    else roundToDouble (a / b)
  | nan, _ => nan
  | _, nan => nan
  | finite _, posInf => finite 0
  | finite _, negInf => finite 0
  | posInf, finite b => if 0 ≤ b then posInf else negInf
  | negInf, finite b => if 0 ≤ b then negInf else posInf
  | posInf, posInf => nan
  | posInf, negInf => nan
  | negInf, posInf => nan
  | negInf, negInf => nan

/-- The function Math.pow, following Number::exponentiate of ECMA-262 case by
case.  The last case of the standard is implementation-approximated; for an
integral exponent the model takes the correctly rounded power, which is exact
for base 1 and for exponent 1, the only uses in the theorems below.  A finite
exponent that is not an integer never occurs here (the exponent is a sum of
integer-valued doubles) and is not modelled: the model returns NaN. -/
def pow : Double → Double → Double
  | _, nan => nan
  | base, finite n =>
    if n = 0 then finite 1
    else
      match base with
      | nan => nan
      | posInf => if 0 < n then posInf else finite 0
      | negInf =>
        if 0 < n then (if n.den = 1 ∧ n.num % 2 = 1 then negInf else posInf) else finite 0
      | finite b =>
        if b = 0 then (if 0 < n then finite 0 else posInf)
        else if n.den = 1 then roundToDouble (b ^ n.num)
        else nan
  | nan, posInf => nan
  | nan, negInf => nan
  | posInf, posInf => posInf
  | posInf, negInf => finite 0
  | negInf, posInf => posInf
  | negInf, negInf => finite 0
  | finite b, posInf =>
    if b = 0 then finite 0 else if 1 < |b| then posInf else if |b| = 1 then nan else finite 0
  | finite b, negInf =>
    if b = 0 then posInf else if 1 < |b| then finite 0 else if |b| = 1 then nan else posInf

end Double

/-- What one click on the calculate button does on doubles, up to the totals
of line 91. -/
inductive DoubleOutcome where
  | negativeValueError
  | invalidInputError
  | noResult
  | displayed (emi totalAmountPayable totalInterestPayable : Double)
  deriving DecidableEq, Repr

/-- Lines 62-91 of calculateAndDisplay on doubles: the two validation tests,
the monthly rate, the tenure, the EMI with the operations of line 85 in source
order, the isFinite test of line 87 and the two totals.  A parsed year or month
count is the double nearest to the parsed integer. -/
def calculateAndDisplayDouble (principal annualInterestRate : Double)
    (yearsParsed monthsParsed : Option ℤ) : DoubleOutcome :=
  let tenureYears := roundToDouble (orZero yearsParsed)
  let tenureMonths := roundToDouble (orZero monthsParsed)
  if principal.ltZero || annualInterestRate.ltZero || tenureYears.ltZero
      || tenureMonths.ltZero then
    DoubleOutcome.negativeValueError
  else if principal.isNaN || principal.isZero || annualInterestRate.isNaN
      || annualInterestRate.isZero || (tenureYears.isZero && tenureMonths.isZero) then
    DoubleOutcome.invalidInputError
  else
    let monthlyInterestRate := (annualInterestRate.div (Double.finite 12)).div (Double.finite 100)
    let totalTenureMonths := (tenureYears.mul (Double.finite 12)).add tenureMonths
    let emi :=
      ((principal.mul monthlyInterestRate).mul
          (((Double.finite 1).add monthlyInterestRate).pow totalTenureMonths)).div
        ((((Double.finite 1).add monthlyInterestRate).pow totalTenureMonths).sub (Double.finite 1))
    if !emi.isFinite then
      DoubleOutcome.noResult
    else
      let totalAmountPayable := emi.mul totalTenureMonths
      let totalInterestPayable := totalAmountPayable.sub principal
      DoubleOutcome.displayed emi totalAmountPayable totalInterestPayable

/-! ## The loop -/

theorem scheduleLoop_eq_rowsFrom (r e : ℚ) (N : ℤ) :
    ∀ (n : ℕ) (m : ℤ) (b : ℚ) (rows : List ScheduleRow), (N + 1 - m).toNat = n →
      scheduleLoop r e N m b rows = rows ++ rowsFrom r e m b n := by
  intro n
  induction n with
  | zero =>
    intro m b rows h
    rw [scheduleLoop, if_neg (by omega)]
    simp [rowsFrom]
  | succ n ih =>
    intro m b rows h
    rw [scheduleLoop, if_pos (by omega)]
    simp only []
    rw [ih (m + 1) _ _ (by omega)]
    simp [rowsFrom]

theorem generateAmortizationSchedule_eq (p r e : ℚ) (N : ℤ) :
    generateAmortizationSchedule p r e N = rowsFrom r e 1 p N.toNat := by
  unfold generateAmortizationSchedule
  rw [scheduleLoop_eq_rowsFrom r e N N.toNat 1 p [] (by omega)]
  simp

theorem rowsFrom_length (r e : ℚ) : ∀ (n : ℕ) (m : ℤ) (b : ℚ),
    (rowsFrom r e m b n).length = n := by
  intro n
  induction n with
  | zero => intro m b; rfl
  | succ n ih => intro m b; simp [rowsFrom, ih]

theorem rowsFrom_months (r e : ℚ) : ∀ (n : ℕ) (m : ℤ) (b : ℚ),
    (rowsFrom r e m b n).map ScheduleRow.month
      = (List.range n).map (fun (i : ℕ) => m + (i : ℤ)) := by
  intro n
  induction n with
  | zero => intro m b; rfl
  | succ n ih =>
    intro m b
    rw [List.range_succ_eq_map]
    simp only [rowsFrom, List.map_cons, ih, List.map_map]
    simp only [Nat.cast_zero, add_zero, List.cons.injEq, true_and]
    apply List.map_congr_left
    intro i _
    simp only [Function.comp, Nat.cast_succ]
    ring

theorem rowsFrom_getElem (r e : ℚ) : ∀ (n : ℕ) (m : ℤ) (b : ℚ) (i : ℕ), i < n →
    (rowsFrom r e m b n)[i]? = some
      { month := m + (i : ℤ)
        principalPayment := e - balanceAfter r e b i * r
        interestPayment := balanceAfter r e b i * r
        remainingBalance := max 0 (balanceAfter r e b (i + 1))
        balance := balanceAfter r e b (i + 1) } := by
  intro n
  induction n with
  | zero => intro m b i h; omega
  | succ n ih =>
    intro m b i h
    cases i with
    | zero => simp [rowsFrom, balanceAfter]
    | succ i =>
      simp only [rowsFrom, List.getElem?_cons_succ]
      rw [ih (m + 1) _ i (by omega)]
      simp only [balanceAfter, Nat.cast_succ]
      congr 2
      ring

theorem rowsFrom_principal_sum (r e : ℚ) : ∀ (n : ℕ) (m : ℤ) (b : ℚ),
    ((rowsFrom r e m b n).map ScheduleRow.principalPayment).sum
      = b - balanceAfter r e b n := by
  intro n
  induction n with
  | zero => intro m b; simp [rowsFrom, balanceAfter]
  | succ n ih =>
    intro m b
    simp only [rowsFrom, List.map_cons, List.sum_cons, ih, balanceAfter]
    ring

theorem rowsFrom_interest_sum (r e : ℚ) : ∀ (n : ℕ) (m : ℤ) (b : ℚ),
    ((rowsFrom r e m b n).map ScheduleRow.interestPayment).sum
      = e * n - (b - balanceAfter r e b n) := by
  intro n
  induction n with
  | zero => intro m b; simp [rowsFrom, balanceAfter]
  | succ n ih =>
    intro m b
    simp only [rowsFrom, List.map_cons, List.sum_cons, ih, balanceAfter, Nat.cast_succ]
    ring

/-- Closed form of the running balance for a non-zero monthly rate. -/
theorem balanceAfter_closed (r e : ℚ) (hr : r ≠ 0) : ∀ (k : ℕ) (b : ℚ),
    balanceAfter r e b k = b * (1 + r) ^ k - e * ((1 + r) ^ k - 1) / r := by
  intro k
  induction k with
  | zero => intro b; simp [balanceAfter]
  | succ k ih =>
    intro b
    simp only [balanceAfter, ih, pow_succ]
    field_simp
    ring

/-! ## Arithmetic of the EMI formula -/

theorem zpow_eq_pow_toNat (q : ℚ) (N : ℤ) (h : 0 ≤ N) : q ^ N = q ^ N.toNat := by
  conv_lhs => rw [← Int.toNat_of_nonneg h]
  exact zpow_natCast q N.toNat

theorem one_lt_growth_pow (r : ℚ) (hr : 0 < r) (n : ℕ) (hn : 1 ≤ n) : 1 < (1 + r) ^ n := by
  have h1 : (1 : ℚ) < 1 + r := by linarith
  exact one_lt_pow₀ h1 (by omega)

theorem one_le_growth_pow (r : ℚ) (hr : 0 < r) (n : ℕ) : 1 ≤ (1 + r) ^ n := by
  have h1 : (1 : ℚ) ≤ 1 + r := by linarith
  exact one_le_pow₀ h1

theorem one_lt_growth_zpow (r : ℚ) (hr : 0 < r) (N : ℤ) (hN : 1 ≤ N) : 1 < (1 + r) ^ N := by
  rw [zpow_eq_pow_toNat _ N (by omega)]
  exact one_lt_growth_pow r hr N.toNat (by omega)

/-- The interest factor is at most n times the rate times the growth factor. -/
theorem growth_sub_one_le (r : ℚ) (hr : 0 < r) (n : ℕ) :
    (1 + r) ^ n - 1 ≤ n * r * (1 + r) ^ n := by
  induction n with
  | zero => simp
  | succ n ih =>
    have h1 := one_le_growth_pow r hr (n + 1)
    have h2 : r * 1 ≤ r * (1 + r) ^ (n + 1) := mul_le_mul_of_nonneg_left h1 hr.le
    have h3 : (1 + r) * ((1 + r) ^ n - 1) ≤ (1 + r) * (n * r * (1 + r) ^ n) :=
      mul_le_mul_of_nonneg_left ih (by linarith)
    push_cast
    rw [pow_succ] at h2 ⊢
    nlinarith [h2, h3]

theorem emiFormula_pos (p r : ℚ) (hp : 0 < p) (hr : 0 < r) (N : ℤ) (hN : 1 ≤ N) :
    0 < emiFormula p r N := by
  have h1 := one_lt_growth_zpow r hr N hN
  unfold emiFormula
  apply div_pos
  · exact mul_pos (mul_pos hp hr) (by linarith)
  · linarith

theorem principal_le_total (p r : ℚ) (hp : 0 < p) (hr : 0 < r) (N : ℤ) (hN : 1 ≤ N) :
    p ≤ emiFormula p r N * N := by
  have h1 := one_lt_growth_zpow r hr N hN
  have h2 := growth_sub_one_le r hr N.toNat
  have hc : ((N.toNat : ℤ) : ℚ) = (N : ℚ) := by
    rw [Int.toNat_of_nonneg (by omega)]
  rw [← zpow_eq_pow_toNat _ N (by omega)] at h2
  have h2b : (1 + r) ^ N - 1 ≤ (N : ℚ) * r * (1 + r) ^ N := by
    rw [← hc]; exact_mod_cast h2
  have hd : 0 < (1 + r) ^ N - 1 := by linarith
  unfold emiFormula
  rw [div_mul_eq_mul_div, le_div_iff₀ hd]
  nlinarith [mul_le_mul_of_nonneg_left h2b hp.le]

/-- With the EMI of the formula the running balance has the closed form
principal * ((1+r)^N - (1+r)^k) / ((1+r)^N - 1). -/
theorem balanceAfter_emiFormula (p r : ℚ) (hr : 0 < r) (N : ℤ) (hN : 1 ≤ N) (k : ℕ) :
    balanceAfter r (emiFormula p r N) p k
      = p * ((1 + r) ^ N - (1 + r) ^ k) / ((1 + r) ^ N - 1) := by
  have h1 := one_lt_growth_zpow r hr N hN
  have hd : (1 + r) ^ N - 1 ≠ 0 := by linarith
  rw [balanceAfter_closed r _ hr.ne.symm]
  unfold emiFormula
  field_simp
  ring

theorem calculate_valid (p a : ℚ) (y m : ℤ) (ha : 0 < a) (hN : 1 ≤ y * 12 + m) :
    calculate p a y m
      = Outcome.displayed (emiFormula p (a / 12 / 100) (y * 12 + m))
          (emiFormula p (a / 12 / 100) (y * 12 + m) * ((y * 12 + m : ℤ) : ℚ))
          (emiFormula p (a / 12 / 100) (y * 12 + m) * ((y * 12 + m : ℤ) : ℚ) - p)
          (generateAmortizationSchedule p (a / 12 / 100)
            (emiFormula p (a / 12 / 100) (y * 12 + m)) (y * 12 + m)) := by
  have hr : (0 : ℚ) < a / 12 / 100 := by positivity
  have h1 := one_lt_growth_zpow _ hr _ hN
  have hd : (1 + a / 12 / 100) ^ (y * 12 + m) - 1 ≠ 0 := by linarith
  simp only [calculate, emiFormula, if_neg hd]

theorem calculateAndDisplay_valid (p a : ℚ) (y m : ℤ) (hp : 0 < p) (ha : 0 < a)
    (hy : 0 ≤ y) (hm : 0 ≤ m) (hym : ¬(y = 0 ∧ m = 0)) :
    calculateAndDisplay (some p) (some a) (some y) (some m) = calculate p a y m := by
  have h1 : ¬ p < 0 := by linarith
  have h2 : ¬ a < 0 := by linarith
  have h3 : ¬ y < 0 := by omega
  have h4 : ¬ m < 0 := by omega
  have h5 : p ≠ 0 := hp.ne.symm
  have h6 : a ≠ 0 := ha.ne.symm
  have h7 : y = 0 → m ≠ 0 := fun h0 hm0 => hym ⟨h0, hm0⟩
  simp [calculateAndDisplay, ltZero, nanOrZero, orZero, h1, h2, h3, h4, h5, h6]
  intro h0 hm0
  exact absurd hm0 (h7 h0)

theorem ltZero_eq_false (x : Option ℚ) (h : ∀ q, x = some q → 0 ≤ q) : ltZero x = false := by
  cases x with
  | none => rfl
  | some q => simpa [ltZero] using h q rfl

theorem nanOrZero_eq_true_iff (x : Option ℚ) : nanOrZero x = true ↔ x = none ∨ x = some 0 := by
  cases x with
  | none => simp [nanOrZero]
  | some q => simp [nanOrZero]

/-! ## Validation -/

/-- C1: whenever at least one of principal, annual rate, years, months is
negative, the handler stops at the negative-value alert (NegativeValueError) and
not at the invalid-input alert, whatever else holds of the inputs (NaN or zero
principal or rate, zero tenure). -/
theorem negative_input_yields_negativeValueError
    (principal annualInterestRate : Option ℚ) (yearsParsed monthsParsed : Option ℤ)
    (hneg : (∃ q, principal = some q ∧ q < 0) ∨ (∃ q, annualInterestRate = some q ∧ q < 0)
      ∨ orZero yearsParsed < 0 ∨ orZero monthsParsed < 0) :
    calculateAndDisplay principal annualInterestRate yearsParsed monthsParsed
        = Outcome.negativeValueError
      ∧ calculateAndDisplay principal annualInterestRate yearsParsed monthsParsed
        ≠ Outcome.invalidInputError := by
  have key : calculateAndDisplay principal annualInterestRate yearsParsed monthsParsed
      = Outcome.negativeValueError := by
    unfold calculateAndDisplay
    rcases hneg with ⟨q, rfl, hq⟩ | ⟨q, rfl, hq⟩ | h | h
    · simp [ltZero, hq]
    · simp [ltZero, hq]
    · simp [h]
    · simp [h]
  exact ⟨key, by rw [key]; exact fun h => Outcome.noConfusion h⟩

theorem negative_input_yields_negativeValueError_witness :
    ((∃ q : ℚ, (some (-1000) : Option ℚ) = some q ∧ q < 0)
        ∨ (∃ q : ℚ, (none : Option ℚ) = some q ∧ q < 0)
        ∨ orZero (some 0) < 0 ∨ orZero none < 0)
      ∧ (calculateAndDisplay (some (-1000)) none (some 0) none = Outcome.negativeValueError
        ∧ calculateAndDisplay (some (-1000)) none (some 0) none ≠ Outcome.invalidInputError) :=
  ⟨Or.inl ⟨-1000, rfl, by norm_num⟩,
    negative_input_yields_negativeValueError (some (-1000)) none (some 0) none
      (Or.inl ⟨-1000, rfl, by norm_num⟩)⟩

/-- C2: with no negative field, the handler stops at the invalid-input alert
(InvalidInputError) exactly when principal is NaN or zero, or the rate is NaN or
zero, or years and months are both zero; otherwise validation passes with
principal > 0, rate > 0 and totalTenureMonths = years*12 + months >= 1, and the
calculation is run on these values. -/
theorem invalidInputError_iff_of_no_negative
    (principal annualInterestRate : Option ℚ) (yearsParsed monthsParsed : Option ℤ)
    (hp : ∀ q, principal = some q → 0 ≤ q) (ha : ∀ q, annualInterestRate = some q → 0 ≤ q)
    (hy : 0 ≤ orZero yearsParsed) (hm : 0 ≤ orZero monthsParsed) :
    (calculateAndDisplay principal annualInterestRate yearsParsed monthsParsed
        = Outcome.invalidInputError
      ↔ (principal = none ∨ principal = some 0 ∨ annualInterestRate = none
          ∨ annualInterestRate = some 0
          ∨ (orZero yearsParsed = 0 ∧ orZero monthsParsed = 0)))
    ∧ (¬ (principal = none ∨ principal = some 0 ∨ annualInterestRate = none
          ∨ annualInterestRate = some 0
          ∨ (orZero yearsParsed = 0 ∧ orZero monthsParsed = 0)) →
        ∃ p a : ℚ, principal = some p ∧ annualInterestRate = some a ∧ 0 < p ∧ 0 < a
          ∧ 1 ≤ orZero yearsParsed * 12 + orZero monthsParsed
          ∧ calculateAndDisplay principal annualInterestRate yearsParsed monthsParsed
              = calculate p a (orZero yearsParsed) (orZero monthsParsed)
          ∧ calculate p a (orZero yearsParsed) (orZero monthsParsed)
              = Outcome.displayed
                  (emiFormula p (a / 12 / 100) (orZero yearsParsed * 12 + orZero monthsParsed))
                  (emiFormula p (a / 12 / 100) (orZero yearsParsed * 12 + orZero monthsParsed)
                    * ((orZero yearsParsed * 12 + orZero monthsParsed : ℤ) : ℚ))
                  (emiFormula p (a / 12 / 100) (orZero yearsParsed * 12 + orZero monthsParsed)
                    * ((orZero yearsParsed * 12 + orZero monthsParsed : ℤ) : ℚ) - p)
                  (generateAmortizationSchedule p (a / 12 / 100)
                    (emiFormula p (a / 12 / 100)
                      (orZero yearsParsed * 12 + orZero monthsParsed))
                    (orZero yearsParsed * 12 + orZero monthsParsed))) := by
  have hl1 := ltZero_eq_false principal hp
  have hl2 := ltZero_eq_false annualInterestRate ha
  have hy1 : ¬ orZero yearsParsed < 0 := by omega
  have hm1 : ¬ orZero monthsParsed < 0 := by omega
  have good : ¬ (principal = none ∨ principal = some 0 ∨ annualInterestRate = none
          ∨ annualInterestRate = some 0
          ∨ (orZero yearsParsed = 0 ∧ orZero monthsParsed = 0)) →
        ∃ p a : ℚ, principal = some p ∧ annualInterestRate = some a ∧ 0 < p ∧ 0 < a
          ∧ 1 ≤ orZero yearsParsed * 12 + orZero monthsParsed
          ∧ calculateAndDisplay principal annualInterestRate yearsParsed monthsParsed
              = calculate p a (orZero yearsParsed) (orZero monthsParsed) := by
    intro hc
    simp only [not_or] at hc
    obtain ⟨c1, c2, c3, c4, c5⟩ := hc
    obtain ⟨p, rfl⟩ := Option.ne_none_iff_exists'.mp c1
    obtain ⟨a, rfl⟩ := Option.ne_none_iff_exists'.mp c3
    have hp0 : p ≠ 0 := fun h => c2 (by rw [h])
    have ha0 : a ≠ 0 := fun h => c4 (by rw [h])
    have hpp : 0 < p := lt_of_le_of_ne (hp p rfl) (Ne.symm hp0)
    have hap : 0 < a := lt_of_le_of_ne (ha a rfl) (Ne.symm ha0)
    have hN : 1 ≤ orZero yearsParsed * 12 + orZero monthsParsed := by
      by_contra hlt
      exact c5 ⟨by omega, by omega⟩
    refine ⟨p, a, rfl, rfl, hpp, hap, hN, ?_⟩
    have h7 : orZero yearsParsed = 0 → orZero monthsParsed ≠ 0 := fun h0 hm0 => c5 ⟨h0, hm0⟩
    unfold calculateAndDisplay
    simp only [hl1, hl2, hy1, hm1, nanOrZero, hp0, ha0, decide_False, Bool.or_false,
      Bool.false_or, Bool.false_eq_true, if_false, Bool.and_eq_true, decide_eq_true_eq]
    rw [if_neg (fun h => h7 h.1 h.2)]
  constructor
  · constructor
    · intro hinv
      by_contra hc
      obtain ⟨p, a, _, _, _, hap, hN, hcalc⟩ := good hc
      rw [hcalc, calculate_valid p a _ _ hap hN] at hinv
      exact Outcome.noConfusion hinv
    · intro hc
      have hcond : (nanOrZero principal || nanOrZero annualInterestRate
          || (decide (orZero yearsParsed = 0) && decide (orZero monthsParsed = 0))) = true := by
        simp only [Bool.or_eq_true, Bool.and_eq_true, decide_eq_true_eq, nanOrZero_eq_true_iff]
        tauto
      unfold calculateAndDisplay
      simp only [hl1, hl2, hy1, hm1, decide_False, Bool.or_false, Bool.false_eq_true, if_false,
        hcond, if_true]
  · intro hc
    obtain ⟨p, a, e1, e2, hpp, hap, hN, hcalc⟩ := good hc
    exact ⟨p, a, e1, e2, hpp, hap, hN, hcalc, calculate_valid p a _ _ hap hN⟩

theorem invalidInputError_iff_of_no_negative_witness :
    calculateAndDisplay (some 100000) (some 10) (some 0) none = Outcome.invalidInputError
      ∧ calculateAndDisplay (some 100000) none (some 1) (some 0) = Outcome.invalidInputError
      ∧ calculateAndDisplay (some 100000) (some 10) (some 1) none ≠ Outcome.invalidInputError := by
  refine ⟨?_, ?_, ?_⟩
  · exact ((invalidInputError_iff_of_no_negative (some 100000) (some 10) (some 0) none
      (by intro q h; cases h; norm_num) (by intro q h; cases h; norm_num)
      (by decide) (by decide)).1).2 (by simp [orZero])
  · exact ((invalidInputError_iff_of_no_negative (some 100000) none (some 1) (some 0)
      (by intro q h; cases h; norm_num) (by intro q h; cases h)
      (by decide) (by decide)).1).2 (by simp)
  · intro h
    have := ((invalidInputError_iff_of_no_negative (some 100000) (some 10) (some 1) none
      (by intro q h; cases h; norm_num) (by intro q h; cases h; norm_num)
      (by decide) (by decide)).1).1 h
    simp [orZero] at this

/-! ## Rounding to double precision -/

theorem roundHalfEven_of_bounds (x : ℚ) (n : ℤ) (h1 : (n : ℚ) - 1 / 2 < x)
    (h2 : x < (n : ℚ) + 1 / 2) : roundHalfEven x = n := by
  unfold roundHalfEven
  rcases le_or_lt (n : ℚ) x with h | h
  · have hf : ⌊x⌋ = n := by
      rw [Int.floor_eq_iff]
      constructor <;> linarith
    rw [hf, if_pos (by linarith)]
  · have hf : ⌊x⌋ = n - 1 := by
      rw [Int.floor_eq_iff]
      push_cast
      constructor <;> linarith
    rw [hf, if_neg (by push_cast; linarith), if_pos (by push_cast; linarith)]
    ring

theorem log_two_of_bounds (x : ℚ) (e : ℤ) (hx : 0 < x) (hlo : (2 : ℚ) ^ e ≤ x)
    (hhi : x < (2 : ℚ) ^ (e + 1)) : Int.log 2 x = e := by
  have h1 : e ≤ Int.log 2 x :=
    (Int.zpow_le_iff_le_log (by norm_num) hx).mp (by exact_mod_cast hlo)
  have h2 : Int.log 2 x < e + 1 :=
    (Int.lt_zpow_iff_log_lt (by norm_num) hx).mp (by exact_mod_cast hhi)
  omega

theorem roundToDouble_of_bounds (x : ℚ) (e n : ℤ) (hx : x ≠ 0) (he : -1022 ≤ e)
    (hlo : (2 : ℚ) ^ e ≤ |x|) (hhi : |x| < (2 : ℚ) ^ (e + 1))
    (hn1 : (n : ℚ) - 1 / 2 < |x| / 2 ^ (e - 52)) (hn2 : |x| / 2 ^ (e - 52) < (n : ℚ) + 1 / 2)
    (hfin : (n : ℚ) * 2 ^ (e - 52) < 2 ^ (1024 : ℤ)) :
    roundToDouble x
      = Double.finite (if 0 < x then (n : ℚ) * 2 ^ (e - 52) else -((n : ℚ) * 2 ^ (e - 52))) := by
  have hlog := log_two_of_bounds |x| e (abs_pos.mpr hx) hlo hhi
  unfold roundToDouble
  rw [if_neg hx]
  simp only [hlog, max_eq_left he, roundHalfEven_of_bounds _ n hn1 hn2]
  rw [if_neg (not_le.mpr hfin)]


theorem roundToDouble_pos (x : ℚ) (e n : ℤ) (v : ℚ) (hx : 0 < x) (he : -1022 ≤ e)
    (hlo : (2 : ℚ) ^ e ≤ x) (hhi : x < (2 : ℚ) ^ (e + 1))
    (hn1 : (n : ℚ) - 1 / 2 < x / 2 ^ (e - 52)) (hn2 : x / 2 ^ (e - 52) < (n : ℚ) + 1 / 2)
    (hfin : (n : ℚ) * 2 ^ (e - 52) < 2 ^ (1024 : ℤ)) (hv : (n : ℚ) * 2 ^ (e - 52) = v) :
    roundToDouble x = Double.finite v := by
  have habs : |x| = x := abs_of_pos hx
  rw [roundToDouble_of_bounds x e n hx.ne.symm he (by rwa [habs]) (by rwa [habs])
    (by rwa [habs]) (by rwa [habs]) hfin, if_pos hx, hv]

theorem roundToDouble_neg (x : ℚ) (e n : ℤ) (v : ℚ) (hx : x < 0) (he : -1022 ≤ e)
    (hlo : (2 : ℚ) ^ e ≤ -x) (hhi : -x < (2 : ℚ) ^ (e + 1))
    (hn1 : (n : ℚ) - 1 / 2 < -x / 2 ^ (e - 52)) (hn2 : -x / 2 ^ (e - 52) < (n : ℚ) + 1 / 2)
    (hfin : (n : ℚ) * 2 ^ (e - 52) < 2 ^ (1024 : ℤ)) (hv : -((n : ℚ) * 2 ^ (e - 52)) = v) :
    roundToDouble x = Double.finite v := by
  have habs : |x| = -x := abs_of_neg hx
  rw [roundToDouble_of_bounds x e n hx.ne he (by rwa [habs]) (by rwa [habs])
    (by rwa [habs]) (by rwa [habs]) hfin, if_neg (by linarith), hv]

theorem div_zero_not_finite (x : Double) : (x.div (Double.finite 0)).isFinite = false := by
  cases x with
  | nan => rfl
  | posInf => simp [Double.div, Double.isFinite]
  | negInf => simp [Double.div, Double.isFinite]
  | finite a =>
    simp only [Double.div, if_true]
    by_cases h0 : a = 0
    · simp [h0, Double.isFinite]
    · by_cases h1 : 0 < a <;> simp [h0, h1, Double.isFinite]

theorem roundToDouble_zero : roundToDouble 0 = Double.finite 0 := by
  simp [roundToDouble]

theorem roundToDouble_one : roundToDouble 1 = Double.finite 1 := by
  apply roundToDouble_pos 1 0 (2 ^ 52) <;> norm_num

/-! ## The EMI and the totals -/

/-- C3, as stated, fails on doubles: for principal 100000, annual rate 2^-50
(about 8.88e-16) and 1 year, the monthly rate is so small that 1 + r rounds to
1, the divisor of line 85 is 0, the EMI is not finite and the handler takes the
silent return of line 87. -/
theorem double_tiny_rate_takes_silent_return :
    calculateAndDisplayDouble (Double.finite 100000) (Double.finite (1 / 2 ^ 50)) (some 1) (some 0)
      = DoubleOutcome.noResult := by
  have hy : roundToDouble ((orZero (some 1) : ℤ) : ℚ) = Double.finite 1 := by
    simpa [orZero] using roundToDouble_one
  have hm : roundToDouble ((orZero (some 0) : ℤ) : ℚ) = Double.finite 0 := by
    simpa [orZero] using roundToDouble_zero
  have h1 : (Double.finite (1 / 2 ^ 50)).div (Double.finite 12)
      = Double.finite (6004799503160661 / 2 ^ 106) := by
    simp only [Double.div]
    rw [if_neg (by norm_num)]
    apply roundToDouble_pos _ (-54) 6004799503160661 <;> norm_num
  have h2 : (Double.finite (6004799503160661 / 2 ^ 106)).div (Double.finite 100)
      = Double.finite (7686143364045646 / 2 ^ 113) := by
    simp only [Double.div]
    rw [if_neg (by norm_num)]
    apply roundToDouble_pos _ (-61) 7686143364045646 <;> norm_num
  have h3 : (Double.finite 1).mul (Double.finite 12) = Double.finite 12 := by
    simp only [Double.mul]
    apply roundToDouble_pos _ 3 (3 * 2 ^ 51) <;> norm_num
  have h4 : (Double.finite 12).add (Double.finite 0) = Double.finite 12 := by
    simp only [Double.add]
    apply roundToDouble_pos _ 3 (3 * 2 ^ 51) <;> norm_num
  have h5 : (Double.finite 1).add (Double.finite (7686143364045646 / 2 ^ 113))
      = Double.finite 1 := by
    simp only [Double.add]
    apply roundToDouble_pos _ 0 (2 ^ 52) <;> norm_num
  have h6 : (Double.finite 1).pow (Double.finite 12) = Double.finite 1 := by
    simp only [Double.pow]
    rw [if_neg (by norm_num), if_neg (by norm_num), if_pos (by rfl)]
    apply roundToDouble_pos _ 0 (2 ^ 52) <;> norm_num
  have h7 : (Double.finite 1).sub (Double.finite 1) = Double.finite 0 := by
    simp only [Double.sub, sub_self, roundToDouble_zero]
  simp only [calculateAndDisplayDouble, hy, hm, h1, h2, h3, h4, h5, h6, h7, div_zero_not_finite]
  simp [Double.ltZero, Double.isNaN, Double.isZero]


/-- C3, amended: in exact arithmetic, for principal > 0, annual rate > 0 and
N = years*12 + months >= 1, with r = rate/12/100, the divisor (1+r)^N - 1 is
non-zero, the non-finite return is not taken, the displayed EMI is
principal * r * (1+r)^N / ((1+r)^N - 1) and is strictly positive, and the
displayed total payable is EMI * N. -/
theorem emi_defined_positive_and_total
    (p a : ℚ) (y m : ℤ) (hp : 0 < p) (ha : 0 < a) (hy : 0 ≤ y) (hm : 0 ≤ m)
    (hN : 1 ≤ y * 12 + m) :
    (1 + a / 12 / 100) ^ (y * 12 + m) - 1 ≠ 0
      ∧ calculateAndDisplay (some p) (some a) (some y) (some m) ≠ Outcome.noResult
      ∧ ∃ emi totalAmountPayable totalInterestPayable rows,
          calculateAndDisplay (some p) (some a) (some y) (some m)
            = Outcome.displayed emi totalAmountPayable totalInterestPayable rows
          ∧ emi = p * (a / 12 / 100) * (1 + a / 12 / 100) ^ (y * 12 + m)
              / ((1 + a / 12 / 100) ^ (y * 12 + m) - 1)
          ∧ 0 < emi
          ∧ totalAmountPayable = emi * ((y * 12 + m : ℤ) : ℚ) := by
  have hr : (0 : ℚ) < a / 12 / 100 := by positivity
  have h1 := one_lt_growth_zpow _ hr _ hN
  have hcalc := calculateAndDisplay_valid p a y m hp ha hy hm (by omega)
  rw [calculate_valid p a y m ha hN] at hcalc
  refine ⟨by linarith, ?_, ?_⟩
  · rw [hcalc]
    exact fun h => Outcome.noConfusion h
  · exact ⟨_, _, _, _, hcalc, rfl, emiFormula_pos p _ hp hr _ hN, rfl⟩

theorem emi_defined_positive_and_total_witness :
    (1 + (10 : ℚ) / 12 / 100) ^ ((1 : ℤ) * 12 + 0) - 1 ≠ 0
      ∧ calculateAndDisplay (some 100000) (some 10) (some 1) (some 0) ≠ Outcome.noResult
      ∧ ∃ emi totalAmountPayable totalInterestPayable rows,
          calculateAndDisplay (some 100000) (some 10) (some 1) (some 0)
            = Outcome.displayed emi totalAmountPayable totalInterestPayable rows
          ∧ emi = 100000 * ((10 : ℚ) / 12 / 100) * (1 + (10 : ℚ) / 12 / 100) ^ ((1 : ℤ) * 12 + 0)
              / ((1 + (10 : ℚ) / 12 / 100) ^ ((1 : ℤ) * 12 + 0) - 1)
          ∧ 0 < emi
          ∧ totalAmountPayable = emi * (((1 : ℤ) * 12 + 0 : ℤ) : ℚ) :=
  emi_defined_positive_and_total 100000 10 1 0 (by norm_num) (by norm_num) (by decide)
    (by decide) (by decide)

/-- C4, as stated, fails on doubles: for principal 100000, annual rate 2^-36
(about 1.455e-11) and 1 month, the handler displays EMI = total payable =
99296.9696969709.. and total interest = -703.0303030290.., a negative total
interest (1 + r is rounded up by 0.7 percent of r). -/
theorem double_small_rate_negative_interest :
    calculateAndDisplayDouble (Double.finite 100000) (Double.finite (1 / 2 ^ 36)) (some 0) (some 1)
        = DoubleOutcome.displayed (Double.finite (6823635799046289 / 2 ^ 36))
            (Double.finite (6823635799046289 / 2 ^ 36))
            (Double.finite (-(48311874553711 / 2 ^ 36)))
      ∧ (-(48311874553711 / 2 ^ 36) : ℚ) < 0 := by
  have hy : roundToDouble ((orZero (some 0) : ℤ) : ℚ) = Double.finite 0 := by
    simpa [orZero] using roundToDouble_zero
  have hm : roundToDouble ((orZero (some 1) : ℤ) : ℚ) = Double.finite 1 := by
    simpa [orZero] using roundToDouble_one
  have h1 : (Double.finite (1 / 2 ^ 36)).div (Double.finite 12)
      = Double.finite (6004799503160661 / 2 ^ 92) := by
    simp only [Double.div]
    rw [if_neg (by norm_num)]
    apply roundToDouble_pos _ (-40) 6004799503160661 <;> norm_num
  have h2 : (Double.finite (6004799503160661 / 2 ^ 92)).div (Double.finite 100)
      = Double.finite (7686143364045646 / 2 ^ 99) := by
    simp only [Double.div]
    rw [if_neg (by norm_num)]
    apply roundToDouble_pos _ (-47) 7686143364045646 <;> norm_num
  have h3 : (Double.finite 0).mul (Double.finite 12) = Double.finite 0 := by
    simp only [Double.mul, zero_mul, roundToDouble_zero]
  have h4 : (Double.finite 0).add (Double.finite 1) = Double.finite 1 := by
    simp only [Double.add, zero_add, roundToDouble_one]
  have h5 : (Double.finite 1).add (Double.finite (7686143364045646 / 2 ^ 99))
      = Double.finite (4503599627370551 / 2 ^ 52) := by
    simp only [Double.add]
    apply roundToDouble_pos _ 0 4503599627370551 <;> norm_num
  have h6 : (Double.finite (4503599627370551 / 2 ^ 52)).pow (Double.finite 1)
      = Double.finite (4503599627370551 / 2 ^ 52) := by
    simp only [Double.pow]
    rw [if_neg (by norm_num), if_neg (by norm_num), if_pos (by rfl)]
    apply roundToDouble_pos _ 0 4503599627370551 <;> norm_num
  have h7 : (Double.finite 100000).mul (Double.finite (7686143364045646 / 2 ^ 99))
      = Double.finite (5864062014805333 / 2 ^ 82) := by
    simp only [Double.mul]
    apply roundToDouble_pos _ (-30) 5864062014805333 <;> norm_num
  have h8 : (Double.finite (5864062014805333 / 2 ^ 82)).mul
        (Double.finite (4503599627370551 / 2 ^ 52))
      = Double.finite (5864062014805405 / 2 ^ 82) := by
    simp only [Double.mul]
    apply roundToDouble_pos _ (-30) 5864062014805405 <;> norm_num
  have h9 : (Double.finite (4503599627370551 / 2 ^ 52)).sub (Double.finite 1)
      = Double.finite (55 / 2 ^ 52) := by
    simp only [Double.sub]
    apply roundToDouble_pos _ (-47) 7740561859543040 <;> norm_num
  have h10 : (Double.finite (5864062014805405 / 2 ^ 82)).div (Double.finite (55 / 2 ^ 52))
      = Double.finite (6823635799046289 / 2 ^ 36) := by
    simp only [Double.div]
    rw [if_neg (by norm_num)]
    apply roundToDouble_pos _ 16 6823635799046289 <;> norm_num
  have h11 : (Double.finite (6823635799046289 / 2 ^ 36)).mul (Double.finite 1)
      = Double.finite (6823635799046289 / 2 ^ 36) := by
    simp only [Double.mul]
    apply roundToDouble_pos _ 16 6823635799046289 <;> norm_num
  have h12 : (Double.finite (6823635799046289 / 2 ^ 36)).sub (Double.finite 100000)
      = Double.finite (-(48311874553711 / 2 ^ 36)) := by
    simp only [Double.sub]
    apply roundToDouble_neg _ 9 6183919942875008 <;> norm_num
  refine ⟨?_, by norm_num⟩
  simp only [calculateAndDisplayDouble, hy, hm, h1, h2, h3, h4, h5, h6, h7, h8, h9, h10, h11,
    h12]
  simp [Double.ltZero, Double.isNaN, Double.isZero, Double.isFinite]

/-- C4, amended: in exact arithmetic, for every valid request, with the EMI of
the formula and total payable EMI * N, the displayed total interest is the total
payable minus the principal, and it is non-negative: EMI * N >= principal. -/
theorem total_interest_nonneg
    (p a : ℚ) (y m : ℤ) (hp : 0 < p) (ha : 0 < a) (hy : 0 ≤ y) (hm : 0 ≤ m)
    (hN : 1 ≤ y * 12 + m) :
    ∃ emi totalAmountPayable totalInterestPayable rows,
      calculateAndDisplay (some p) (some a) (some y) (some m)
        = Outcome.displayed emi totalAmountPayable totalInterestPayable rows
      ∧ emi = p * (a / 12 / 100) * (1 + a / 12 / 100) ^ (y * 12 + m)
          / ((1 + a / 12 / 100) ^ (y * 12 + m) - 1)
      ∧ totalAmountPayable = emi * ((y * 12 + m : ℤ) : ℚ)
      ∧ totalInterestPayable = totalAmountPayable - p
      ∧ 0 ≤ totalInterestPayable
      ∧ p ≤ emi * ((y * 12 + m : ℤ) : ℚ) := by
  have hr : (0 : ℚ) < a / 12 / 100 := by positivity
  have hcalc := calculateAndDisplay_valid p a y m hp ha hy hm (by omega)
  rw [calculate_valid p a y m ha hN] at hcalc
  have hle := principal_le_total p _ hp hr _ hN
  exact ⟨_, _, _, _, hcalc, rfl, rfl, rfl, by linarith, hle⟩

theorem total_interest_nonneg_witness :
    ∃ emi totalAmountPayable totalInterestPayable rows,
      calculateAndDisplay (some 500000) (some 8) (some 20) (some 0)
        = Outcome.displayed emi totalAmountPayable totalInterestPayable rows
      ∧ emi = 500000 * ((8 : ℚ) / 12 / 100) * (1 + (8 : ℚ) / 12 / 100) ^ ((20 : ℤ) * 12 + 0)
          / ((1 + (8 : ℚ) / 12 / 100) ^ ((20 : ℤ) * 12 + 0) - 1)
      ∧ totalAmountPayable = emi * (((20 : ℤ) * 12 + 0 : ℤ) : ℚ)
      ∧ totalInterestPayable = totalAmountPayable - 500000
      ∧ 0 ≤ totalInterestPayable
      ∧ 500000 ≤ emi * (((20 : ℤ) * 12 + 0 : ℤ) : ℚ) :=
  total_interest_nonneg 500000 8 20 0 (by norm_num) (by norm_num) (by decide)
    (by decide) (by decide)

/-! ## The schedule -/

/-- C7: for every principal, monthly rate, installment and tenureMonths N >= 0
the schedule builder appends exactly N rows, and the month cells are 1, 2, ..,
N in this order: the i-th row (1-based) carries i, so the period numbers
increase strictly, without gap or repeat. -/
theorem schedule_length_and_months (principal monthlyRate emi : ℚ) (N : ℤ) (hN : 0 ≤ N) :
    ((generateAmortizationSchedule principal monthlyRate emi N).length : ℤ) = N
      ∧ (generateAmortizationSchedule principal monthlyRate emi N).map ScheduleRow.month
          = (List.range N.toNat).map (fun (i : ℕ) => (i : ℤ) + 1)
      ∧ (∀ i : ℕ, i < (generateAmortizationSchedule principal monthlyRate emi N).length →
          ((generateAmortizationSchedule principal monthlyRate emi N)[i]?).map ScheduleRow.month
            = some ((i : ℤ) + 1))
      ∧ List.Pairwise (fun a b => a < b)
          ((generateAmortizationSchedule principal monthlyRate emi N).map ScheduleRow.month) := by
  have hmonths : (generateAmortizationSchedule principal monthlyRate emi N).map ScheduleRow.month
      = (List.range N.toNat).map (fun (i : ℕ) => (i : ℤ) + 1) := by
    rw [generateAmortizationSchedule_eq, rowsFrom_months]
    apply List.map_congr_left
    intro i _
    ring
  have hlen : (generateAmortizationSchedule principal monthlyRate emi N).length = N.toNat := by
    rw [generateAmortizationSchedule_eq, rowsFrom_length]
  refine ⟨by rw [hlen]; omega, hmonths, ?_, ?_⟩
  · intro i hi
    rw [← List.getElem?_map, hmonths, List.getElem?_map, List.getElem?_range (by omega)]
    rfl
  · rw [hmonths, List.pairwise_map]
    refine List.Pairwise.imp ?_ (List.pairwise_lt_range N.toNat)
    intro a b hab
    have : (a : ℤ) < (b : ℤ) := by exact_mod_cast hab
    linarith

theorem schedule_length_and_months_witness :
    ((generateAmortizationSchedule 1000 (1 / 100) 400 3).length : ℤ) = 3
      ∧ (generateAmortizationSchedule 1000 (1 / 100) 400 3).map ScheduleRow.month
          = (List.range (3 : ℤ).toNat).map (fun (i : ℕ) => (i : ℤ) + 1)
      ∧ (∀ i : ℕ, i < (generateAmortizationSchedule 1000 (1 / 100) 400 3).length →
          ((generateAmortizationSchedule 1000 (1 / 100) 400 3)[i]?).map ScheduleRow.month
            = some ((i : ℤ) + 1))
      ∧ List.Pairwise (fun a b => a < b)
          ((generateAmortizationSchedule 1000 (1 / 100) 400 3).map ScheduleRow.month) :=
  schedule_length_and_months 1000 (1 / 100) 400 3 (by decide)

/-- With the EMI of the formula, row i (0-based) of the schedule of a valid
request carries the closed-form balances. -/
theorem schedule_getElem (p r : ℚ) (hr : 0 < r) (N : ℤ) (hN : 1 ≤ N) (i : ℕ) (hi : (i : ℤ) < N) :
    (generateAmortizationSchedule p r (emiFormula p r N) N)[i]? = some
      { month := 1 + (i : ℤ)
        principalPayment := emiFormula p r N
          - p * ((1 + r) ^ N - (1 + r) ^ i) / ((1 + r) ^ N - 1) * r
        interestPayment := p * ((1 + r) ^ N - (1 + r) ^ i) / ((1 + r) ^ N - 1) * r
        remainingBalance := max 0 (p * ((1 + r) ^ N - (1 + r) ^ (i + 1)) / ((1 + r) ^ N - 1))
        balance := p * ((1 + r) ^ N - (1 + r) ^ (i + 1)) / ((1 + r) ^ N - 1) } := by
  rw [generateAmortizationSchedule_eq, rowsFrom_getElem r _ N.toNat 1 p i (by omega),
    balanceAfter_emiFormula p r hr N hN, balanceAfter_emiFormula p r hr N hN]

/-- The closed-form balance decreases strictly from one period to the next and
stays non-negative up to period N. -/
theorem closed_balance_bounds (p r : ℚ) (hp : 0 < p) (hr : 0 < r) (N : ℤ) (hN : 1 ≤ N)
    (k : ℕ) (hk : (k : ℤ) + 1 ≤ N) :
    0 ≤ p * ((1 + r) ^ N - (1 + r) ^ (k + 1)) / ((1 + r) ^ N - 1)
      ∧ p * ((1 + r) ^ N - (1 + r) ^ (k + 1)) / ((1 + r) ^ N - 1)
          < p * ((1 + r) ^ N - (1 + r) ^ k) / ((1 + r) ^ N - 1) := by
  have h1 := one_lt_growth_zpow r hr N hN
  have hd : 0 < (1 + r) ^ N - 1 := by linarith
  have hq : (1 : ℚ) < 1 + r := by linarith
  have hle : (1 + r) ^ (k + 1) ≤ (1 + r) ^ N := by
    rw [zpow_eq_pow_toNat _ N (by omega)]
    exact pow_le_pow_right₀ hq.le (by omega)
  have hlt : (1 + r) ^ k < (1 + r) ^ (k + 1) := pow_lt_pow_right₀ hq (by omega)
  constructor
  · apply div_nonneg _ hd.le
    exact mul_nonneg hp.le (by linarith)
  · apply div_lt_div_of_pos_right _ hd
    exact mul_lt_mul_of_pos_left (by linarith) hp

theorem balanceAfter_succ (r e : ℚ) : ∀ (k : ℕ) (b : ℚ),
    balanceAfter r e b (k + 1) = balanceAfter r e b k - (e - balanceAfter r e b k * r) := by
  intro k
  induction k with
  | zero => intro b; rfl
  | succ k ih =>
    intro b
    have h := ih (b - (e - b * r))
    simpa only [balanceAfter] using h

/-- Every row of the schedule is computed from the balance left by the row
before it (the principal for the first row) as in the loop body, lines 144-146. -/
theorem schedule_rows_recurrence (p r e : ℚ) (N : ℤ) (i : ℕ) (row : ScheduleRow)
    (h : (generateAmortizationSchedule p r e N)[i]? = some row) :
    ∃ previous : ℚ,
      ((i = 0 ∧ previous = p)
        ∨ (1 ≤ i ∧ ((generateAmortizationSchedule p r e N)[i - 1]?).map ScheduleRow.balance
            = some previous))
      ∧ row.month = (i : ℤ) + 1
      ∧ row.interestPayment = previous * r
      ∧ row.principalPayment = e - row.interestPayment
      ∧ row.balance = previous - row.principalPayment
      ∧ row.remainingBalance = max 0 row.balance := by
  rw [generateAmortizationSchedule_eq] at h ⊢
  have hi : i < N.toNat := by
    have hlt := (List.getElem?_eq_some.mp h).1
    rwa [rowsFrom_length] at hlt
  rw [rowsFrom_getElem r e N.toNat 1 p i hi] at h
  injection h with h
  subst h
  refine ⟨balanceAfter r e p i, ?_, by simp only []; ring, rfl, rfl, balanceAfter_succ r e i p,
    rfl⟩
  cases i with
  | zero => exact Or.inl ⟨rfl, rfl⟩
  | succ j =>
    refine Or.inr ⟨by omega, ?_⟩
    rw [show j + 1 - 1 = j by omega, rowsFrom_getElem r e N.toNat 1 p j (by omega)]
    rfl

/-- C5: for every valid request the schedule is built with the EMI of the
formula and has N rows, each computed from the balance before it (interest =
balance * monthly rate, principal payment = EMI - interest, new balance =
balance - principal payment, shown clamped at 0, starting from the
principal); the principal payments of these N rows add up to the principal,
and the unclamped balance after the last row is 0. -/
theorem principal_payments_sum_to_principal
    (p a : ℚ) (y m : ℤ) (hp : 0 < p) (ha : 0 < a) (hy : 0 ≤ y) (hm : 0 ≤ m)
    (hN : 1 ≤ y * 12 + m) :
    ∃ emi totalAmountPayable totalInterestPayable rows,
      calculateAndDisplay (some p) (some a) (some y) (some m)
        = Outcome.displayed emi totalAmountPayable totalInterestPayable rows
      ∧ emi = p * (a / 12 / 100) * (1 + a / 12 / 100) ^ (y * 12 + m)
          / ((1 + a / 12 / 100) ^ (y * 12 + m) - 1)
      ∧ (rows.length : ℤ) = y * 12 + m
      ∧ (∀ (i : ℕ) (row : ScheduleRow), rows[i]? = some row →
          ∃ previous : ℚ,
            ((i = 0 ∧ previous = p)
              ∨ (1 ≤ i ∧ (rows[i - 1]?).map ScheduleRow.balance = some previous))
            ∧ row.month = (i : ℤ) + 1
            ∧ row.interestPayment = previous * (a / 12 / 100)
            ∧ row.principalPayment = emi - row.interestPayment
            ∧ row.balance = previous - row.principalPayment
            ∧ row.remainingBalance = max 0 row.balance)
      ∧ (rows.map ScheduleRow.principalPayment).sum = p
      ∧ rows.getLast?.map ScheduleRow.balance = some 0 := by
  have hr : (0 : ℚ) < a / 12 / 100 := by positivity
  have h1 := one_lt_growth_zpow _ hr _ hN
  have hd : (1 + a / 12 / 100) ^ (y * 12 + m) - 1 ≠ 0 := by linarith
  have hcalc := calculateAndDisplay_valid p a y m hp ha hy hm (by omega)
  rw [calculate_valid p a y m ha hN] at hcalc
  have hfinal : balanceAfter (a / 12 / 100) (emiFormula p (a / 12 / 100) (y * 12 + m)) p
      (y * 12 + m).toNat = 0 := by
    rw [balanceAfter_emiFormula p _ hr _ hN, ← zpow_eq_pow_toNat _ _ (by omega)]
    simp
  refine ⟨_, _, _, _, hcalc, rfl, ?_, ?_, ?_, ?_⟩
  · rw [generateAmortizationSchedule_eq, rowsFrom_length]
    omega
  · intro i row h
    exact schedule_rows_recurrence p _ _ _ i row h
  · rw [generateAmortizationSchedule_eq, rowsFrom_principal_sum, hfinal]
    ring
  · rw [List.getLast?_eq_getElem?, generateAmortizationSchedule_eq, rowsFrom_length,
      rowsFrom_getElem _ _ _ _ _ _ (by omega)]
    simp only [Option.map_some']
    rw [show (y * 12 + m).toNat - 1 + 1 = (y * 12 + m).toNat by omega, hfinal]

theorem principal_payments_sum_to_principal_witness :
    ∃ emi totalAmountPayable totalInterestPayable rows,
      calculateAndDisplay (some 100000) (some 10) (some 0) (some 12)
        = Outcome.displayed emi totalAmountPayable totalInterestPayable rows
      ∧ emi = 100000 * ((10 : ℚ) / 12 / 100) * (1 + (10 : ℚ) / 12 / 100) ^ ((0 : ℤ) * 12 + 12)
          / ((1 + (10 : ℚ) / 12 / 100) ^ ((0 : ℤ) * 12 + 12) - 1)
      ∧ (rows.length : ℤ) = (0 : ℤ) * 12 + 12
      ∧ (∀ (i : ℕ) (row : ScheduleRow), rows[i]? = some row →
          ∃ previous : ℚ,
            ((i = 0 ∧ previous = 100000)
              ∨ (1 ≤ i ∧ (rows[i - 1]?).map ScheduleRow.balance = some previous))
            ∧ row.month = (i : ℤ) + 1
            ∧ row.interestPayment = previous * ((10 : ℚ) / 12 / 100)
            ∧ row.principalPayment = emi - row.interestPayment
            ∧ row.balance = previous - row.principalPayment
            ∧ row.remainingBalance = max 0 row.balance)
      ∧ (rows.map ScheduleRow.principalPayment).sum = 100000
      ∧ rows.getLast?.map ScheduleRow.balance = some 0 :=
  principal_payments_sum_to_principal 100000 10 0 12 (by norm_num) (by norm_num) (by decide)
    (by decide) (by decide)

/-- C6: for every valid request the schedule is built with the EMI of the
formula and has N rows, each computed from the balance before it (interest =
balance * monthly rate, principal payment = EMI - interest, new balance =
balance - principal payment, shown clamped at 0, starting from the
principal); the interest payments of these N rows add up to the displayed
total interest, which is EMI * N - principal. -/
theorem interest_payments_sum_to_total_interest
    (p a : ℚ) (y m : ℤ) (hp : 0 < p) (ha : 0 < a) (hy : 0 ≤ y) (hm : 0 ≤ m)
    (hN : 1 ≤ y * 12 + m) :
    ∃ emi totalAmountPayable totalInterestPayable rows,
      calculateAndDisplay (some p) (some a) (some y) (some m)
        = Outcome.displayed emi totalAmountPayable totalInterestPayable rows
      ∧ emi = p * (a / 12 / 100) * (1 + a / 12 / 100) ^ (y * 12 + m)
          / ((1 + a / 12 / 100) ^ (y * 12 + m) - 1)
      ∧ (rows.length : ℤ) = y * 12 + m
      ∧ (∀ (i : ℕ) (row : ScheduleRow), rows[i]? = some row →
          ∃ previous : ℚ,
            ((i = 0 ∧ previous = p)
              ∨ (1 ≤ i ∧ (rows[i - 1]?).map ScheduleRow.balance = some previous))
            ∧ row.month = (i : ℤ) + 1
            ∧ row.interestPayment = previous * (a / 12 / 100)
            ∧ row.principalPayment = emi - row.interestPayment
            ∧ row.balance = previous - row.principalPayment
            ∧ row.remainingBalance = max 0 row.balance)
      ∧ (rows.map ScheduleRow.interestPayment).sum = totalInterestPayable
      ∧ totalInterestPayable = emi * ((y * 12 + m : ℤ) : ℚ) - p := by
  have hr : (0 : ℚ) < a / 12 / 100 := by positivity
  have hcalc := calculateAndDisplay_valid p a y m hp ha hy hm (by omega)
  rw [calculate_valid p a y m ha hN] at hcalc
  have hfinal : balanceAfter (a / 12 / 100) (emiFormula p (a / 12 / 100) (y * 12 + m)) p
      (y * 12 + m).toNat = 0 := by
    rw [balanceAfter_emiFormula p _ hr _ hN, ← zpow_eq_pow_toNat _ _ (by omega)]
    simp
  have hc : (((y * 12 + m).toNat : ℕ) : ℚ) = ((y * 12 + m : ℤ) : ℚ) := by
    have : (((y * 12 + m).toNat : ℤ) : ℚ) = ((y * 12 + m : ℤ) : ℚ) := by
      rw [Int.toNat_of_nonneg (by omega)]
    exact_mod_cast this
  refine ⟨_, _, _, _, hcalc, rfl, ?_, ?_, ?_, rfl⟩
  · rw [generateAmortizationSchedule_eq, rowsFrom_length]
    omega
  · intro i row h
    exact schedule_rows_recurrence p _ _ _ i row h
  · rw [generateAmortizationSchedule_eq, rowsFrom_interest_sum, hfinal, hc]
    ring

theorem interest_payments_sum_to_total_interest_witness :
    ∃ emi totalAmountPayable totalInterestPayable rows,
      calculateAndDisplay (some 250000) (some 9) (some 2) (some 6)
        = Outcome.displayed emi totalAmountPayable totalInterestPayable rows
      ∧ emi = 250000 * ((9 : ℚ) / 12 / 100) * (1 + (9 : ℚ) / 12 / 100) ^ ((2 : ℤ) * 12 + 6)
          / ((1 + (9 : ℚ) / 12 / 100) ^ ((2 : ℤ) * 12 + 6) - 1)
      ∧ (rows.length : ℤ) = (2 : ℤ) * 12 + 6
      ∧ (∀ (i : ℕ) (row : ScheduleRow), rows[i]? = some row →
          ∃ previous : ℚ,
            ((i = 0 ∧ previous = 250000)
              ∨ (1 ≤ i ∧ (rows[i - 1]?).map ScheduleRow.balance = some previous))
            ∧ row.month = (i : ℤ) + 1
            ∧ row.interestPayment = previous * ((9 : ℚ) / 12 / 100)
            ∧ row.principalPayment = emi - row.interestPayment
            ∧ row.balance = previous - row.principalPayment
            ∧ row.remainingBalance = max 0 row.balance)
      ∧ (rows.map ScheduleRow.interestPayment).sum = totalInterestPayable
      ∧ totalInterestPayable = emi * (((2 : ℤ) * 12 + 6 : ℤ) : ℚ) - 250000 :=
  interest_payments_sum_to_total_interest 250000 9 2 6 (by norm_num) (by norm_num) (by decide)
    (by decide) (by decide)

/-- C10: for every valid request and every period k with 1 <= k <= N, in the
schedule built with the EMI of the formula the unclamped balance recorded with
row k is principal * ((1+r)^N - (1+r)^k) / ((1+r)^N - 1); it is non-negative
and strictly below the balance before the period (the principal for k = 1, the
balance of row k-1 otherwise), so the displayed cell max(0, balance) equals the
unclamped balance. -/
theorem running_balance_closed_form
    (p a : ℚ) (y m : ℤ) (hp : 0 < p) (ha : 0 < a) (hy : 0 ≤ y) (hm : 0 ≤ m)
    (hN : 1 ≤ y * 12 + m) (k : ℕ) (hk1 : 1 ≤ k) (hkN : (k : ℤ) ≤ y * 12 + m) :
    ∃ emi totalAmountPayable totalInterestPayable rows row,
      calculateAndDisplay (some p) (some a) (some y) (some m)
        = Outcome.displayed emi totalAmountPayable totalInterestPayable rows
      ∧ rows[k - 1]? = some row
      ∧ row.month = (k : ℤ)
      ∧ row.balance = p * ((1 + a / 12 / 100) ^ (y * 12 + m) - (1 + a / 12 / 100) ^ k)
          / ((1 + a / 12 / 100) ^ (y * 12 + m) - 1)
      ∧ 0 ≤ row.balance
      ∧ (∃ previous : ℚ,
          ((k = 1 ∧ previous = p)
            ∨ (2 ≤ k ∧ (rows[k - 2]?).map ScheduleRow.balance = some previous))
          ∧ row.balance < previous)
      ∧ row.remainingBalance = max 0 row.balance
      ∧ row.remainingBalance = row.balance := by
  have hr : (0 : ℚ) < a / 12 / 100 := by positivity
  have h1 := one_lt_growth_zpow _ hr _ hN
  have hd : (1 + a / 12 / 100) ^ (y * 12 + m) - 1 ≠ 0 := by linarith
  have hcalc := calculateAndDisplay_valid p a y m hp ha hy hm (by omega)
  rw [calculate_valid p a y m ha hN] at hcalc
  obtain ⟨j, rfl⟩ : ∃ j : ℕ, k = j + 1 := ⟨k - 1, by omega⟩
  have hrow := schedule_getElem p _ hr _ hN j (by push_cast at hkN; omega)
  have hb := closed_balance_bounds p _ hp hr _ hN j (by push_cast at hkN; omega)
  have hidx : j + 1 - 1 = j := by omega
  refine ⟨_, _, _, _, _, hcalc, (by rw [hidx]; exact hrow), ?_, rfl, hb.1, ?_, rfl,
    max_eq_right hb.1⟩
  · push_cast; ring
  · cases j with
    | zero =>
      refine ⟨p, Or.inl ⟨rfl, rfl⟩, ?_⟩
      have h2 := hb.2
      have h3 : p * ((1 + a / 12 / 100) ^ (y * 12 + m) - (1 + a / 12 / 100) ^ 0)
          / ((1 + a / 12 / 100) ^ (y * 12 + m) - 1) = p := by
        rw [pow_zero, mul_div_assoc, div_self hd, mul_one]
      rw [h3] at h2
      exact h2
    | succ i =>
      have hprev := schedule_getElem p _ hr _ hN i (by push_cast at hkN; omega)
      refine ⟨_, Or.inr ⟨by omega, ?_⟩, hb.2⟩
      simp only [Nat.add_sub_cancel, show i + 1 + 1 - 2 = i by omega]
      rw [hprev]
      rfl

theorem running_balance_closed_form_witness :
    ∃ emi totalAmountPayable totalInterestPayable rows row,
      calculateAndDisplay (some 100000) (some 10) (some 1) (some 0)
        = Outcome.displayed emi totalAmountPayable totalInterestPayable rows
      ∧ rows[5 - 1]? = some row
      ∧ row.month = ((5 : ℕ) : ℤ)
      ∧ row.balance = 100000 * ((1 + (10 : ℚ) / 12 / 100) ^ ((1 : ℤ) * 12 + 0)
            - (1 + (10 : ℚ) / 12 / 100) ^ 5)
          / ((1 + (10 : ℚ) / 12 / 100) ^ ((1 : ℤ) * 12 + 0) - 1)
      ∧ 0 ≤ row.balance
      ∧ (∃ previous : ℚ,
          ((5 = 1 ∧ previous = 100000)
            ∨ (2 ≤ 5 ∧ (rows[5 - 2]?).map ScheduleRow.balance = some previous))
          ∧ row.balance < previous)
      ∧ row.remainingBalance = max 0 row.balance
      ∧ row.remainingBalance = row.balance :=
  running_balance_closed_form 100000 10 1 0 (by norm_num) (by norm_num) (by decide)
    (by decide) (by decide) 5 (by decide) (by decide)

/-! ## The two concrete scenarios -/

theorem round_eq_of_bounds (x : ℚ) (n : ℤ) (h1 : (n : ℚ) - 1 / 2 ≤ x)
    (h2 : x < (n : ℚ) + 1 / 2) : round x = n := by
  rw [round_eq, Int.floor_eq_iff]
  constructor <;> linarith

theorem scenario12_outcome :
    calculateAndDisplay (some 100000) (some 10) (some 1) (some 0)
      = Outcome.displayed (emiFormula 100000 (10 / 12 / 100) (1 * 12 + 0))
          (emiFormula 100000 (10 / 12 / 100) (1 * 12 + 0) * ((1 * 12 + 0 : ℤ) : ℚ))
          (emiFormula 100000 (10 / 12 / 100) (1 * 12 + 0) * ((1 * 12 + 0 : ℤ) : ℚ) - 100000)
          (generateAmortizationSchedule 100000 (10 / 12 / 100)
            (emiFormula 100000 (10 / 12 / 100) (1 * 12 + 0)) (1 * 12 + 0)) := by
  rw [calculateAndDisplay_valid 100000 10 1 0 (by norm_num) (by norm_num) (by decide)
    (by decide) (by decide)]
  exact calculate_valid 100000 10 1 0 (by norm_num) (by decide)

theorem scenario12_emi :
    roundTo2 (emiFormula 100000 (10 / 12 / 100) (1 * 12 + 0)) = 879159 / 100 := by
  unfold roundTo2 emiFormula
  rw [round_eq_of_bounds _ 879159 (by norm_num) (by norm_num)]
  norm_num

theorem scenario12_total :
    roundTo2 (emiFormula 100000 (10 / 12 / 100) (1 * 12 + 0) * ((1 * 12 + 0 : ℤ) : ℚ))
      = 10549906 / 100 := by
  unfold roundTo2 emiFormula
  rw [round_eq_of_bounds _ 10549906 (by norm_num) (by norm_num)]
  norm_num

theorem scenario12_interest :
    roundTo2 (emiFormula 100000 (10 / 12 / 100) (1 * 12 + 0) * ((1 * 12 + 0 : ℤ) : ℚ) - 100000)
      = 549906 / 100 := by
  unfold roundTo2 emiFormula
  rw [round_eq_of_bounds _ 549906 (by norm_num) (by norm_num)]
  norm_num

/-- C8, as stated, fails: for principal 100000, annual rate 10 and 12 months the
displayed figures cannot round to 8791.59, 105499.12 and 5499.12 together (the
total payable rounds to 105499.06). -/
theorem scenario12_claimed_figures_fail :
    ¬ ∃ emi totalAmountPayable totalInterestPayable rows,
      calculateAndDisplay (some 100000) (some 10) (some 1) (some 0)
        = Outcome.displayed emi totalAmountPayable totalInterestPayable rows
      ∧ roundTo2 emi = 879159 / 100
      ∧ roundTo2 totalAmountPayable = 10549912 / 100
      ∧ roundTo2 totalInterestPayable = 549912 / 100 := by
  rintro ⟨emi, tot, int, rows, h, _, h2, _⟩
  rw [scenario12_outcome] at h
  injection h with _ htot _ _
  rw [← htot, scenario12_total] at h2
  norm_num at h2

/-- C8, amended: for principal 100000, annual rate 10 and 12 months (monthly
rate 1/120) the EMI rounded to 2 decimal places is 8791.59, the total payable
rounds to 105499.06 and the total interest rounds to 5499.06. -/
theorem scenario12_figures :
    ∃ emi totalAmountPayable totalInterestPayable rows,
      calculateAndDisplay (some 100000) (some 10) (some 1) (some 0)
        = Outcome.displayed emi totalAmountPayable totalInterestPayable rows
      ∧ roundTo2 emi = 879159 / 100
      ∧ roundTo2 totalAmountPayable = 10549906 / 100
      ∧ roundTo2 totalInterestPayable = 549906 / 100 :=
  ⟨_, _, _, _, scenario12_outcome, scenario12_emi, scenario12_total, scenario12_interest⟩

theorem scenario240_outcome :
    calculateAndDisplay (some 500000) (some 8) (some 20) (some 0)
      = Outcome.displayed (emiFormula 500000 (8 / 12 / 100) (20 * 12 + 0))
          (emiFormula 500000 (8 / 12 / 100) (20 * 12 + 0) * ((20 * 12 + 0 : ℤ) : ℚ))
          (emiFormula 500000 (8 / 12 / 100) (20 * 12 + 0) * ((20 * 12 + 0 : ℤ) : ℚ) - 500000)
          (generateAmortizationSchedule 500000 (8 / 12 / 100)
            (emiFormula 500000 (8 / 12 / 100) (20 * 12 + 0)) (20 * 12 + 0)) := by
  rw [calculateAndDisplay_valid 500000 8 20 0 (by norm_num) (by norm_num) (by decide)
    (by decide) (by decide)]
  exact calculate_valid 500000 8 20 0 (by norm_num) (by decide)

theorem scenario240_emi :
    roundTo2 (emiFormula 500000 (8 / 12 / 100) (20 * 12 + 0)) = 418220 / 100 := by
  unfold roundTo2 emiFormula
  rw [round_eq_of_bounds _ 418220 (by norm_num) (by norm_num)]
  norm_num

theorem scenario240_rows :
    (generateAmortizationSchedule 500000 (8 / 12 / 100)
        (emiFormula 500000 (8 / 12 / 100) (20 * 12 + 0)) (20 * 12 + 0)).length = 240
      ∧ ((generateAmortizationSchedule 500000 (8 / 12 / 100)
          (emiFormula 500000 (8 / 12 / 100) (20 * 12 + 0)) (20 * 12 + 0))[239]?).map
            ScheduleRow.remainingBalance = some 0 := by
  constructor
  · rw [generateAmortizationSchedule_eq, rowsFrom_length]
    rfl
  · rw [schedule_getElem 500000 (8 / 12 / 100) (by norm_num) (20 * 12 + 0) (by decide) 239
      (by decide)]
    simp only [Option.map_some', Option.some.injEq]
    have hz : ((1 : ℚ) + 8 / 12 / 100) ^ ((20 : ℤ) * 12 + 0) = (1 + 8 / 12 / 100) ^ (239 + 1) :=
      zpow_eq_pow_toNat _ _ (by decide)
    rw [hz, sub_self, mul_zero, zero_div, max_self]

/-- C9, as stated, fails: for principal 500000, annual rate 8 and 240 months the
EMI does not round to 4182.68 (it rounds to 4182.20). -/
theorem scenario240_claimed_emi_fails :
    ¬ ∃ emi totalAmountPayable totalInterestPayable rows,
      calculateAndDisplay (some 500000) (some 8) (some 20) (some 0)
        = Outcome.displayed emi totalAmountPayable totalInterestPayable rows
      ∧ roundTo2 emi = 418268 / 100
      ∧ rows.length = 240
      ∧ (rows[239]?).map ScheduleRow.remainingBalance = some 0 := by
  rintro ⟨emi, tot, int, rows, h, h1, _, _⟩
  rw [scenario240_outcome] at h
  injection h with hemi _ _ _
  rw [← hemi, scenario240_emi] at h1
  norm_num at h1

/-- C9, amended: for principal 500000, annual rate 8 and 240 months (monthly
rate 1/150) the EMI rounded to 2 decimal places is 4182.20, the schedule has
exactly 240 rows and the remaining balance shown in row 240 is 0. -/
theorem scenario240_figures :
    ∃ emi totalAmountPayable totalInterestPayable rows,
      calculateAndDisplay (some 500000) (some 8) (some 20) (some 0)
        = Outcome.displayed emi totalAmountPayable totalInterestPayable rows
      ∧ roundTo2 emi = 418220 / 100
      ∧ rows.length = 240
      ∧ (rows[239]?).map ScheduleRow.remainingBalance = some 0 :=
  ⟨_, _, _, _, scenario240_outcome, scenario240_emi, scenario240_rows.1, scenario240_rows.2⟩

end EmiCalculator
